import Mathlib

/-!
Verification of the monrun stage-execution engine (src/helpers.rs, src/main.rs).

The engine reads an ordered list of stages, builds a build-name index and a
deployment-name index by listing remote resources once, resolves each stage
in order through the applicable index, and dispatches one remote action per
resolved identifier, aggregating the per-identifier results by scanning the
order-preserving result sequence for the first failure.

The remote client is modelled as a record of response functions; the calls
the engine issues are recorded in an explicit trace so that claims about
which remote invocations happen (and which never happen) are statable.
-/

namespace Monrun

/-- The closed enumeration of stage actions (enum Action in main.rs). -/
inductive Action where
  | Build
  | Deploy
  | StartContainer
  | StopContainer
  | DestroyContainer
deriving DecidableEq

/-- One run-book stage (struct Stage in main.rs). -/
structure Stage where
  name : String
  action : Action
  targets : List String
deriving DecidableEq

/-- A listed remote resource, reduced to the two fields the engine reads
(build.name and build.id, d.deployment.name and d.deployment.id). -/
structure Entry where
  name : String
  id : String
deriving DecidableEq

/-- The remote response body for an action invocation: the engine reads only
the boolean success flag (update.success). -/
structure Update where
  success : Bool
deriving DecidableEq

/-- The error taxonomy of the engine, distinguishing the error kinds the
source constructs: a listing failure while building a name index, a missing
name at resolution time, a transport failure wrapped with per-identifier
context, and the synthetic failure for a response with success = false. -/
inductive Err where
  | listing (cause : String)
  | nameNotFound (name : String)
  | transport (msg : String) (cause : String)
  | unsuccessful (msg : String)
deriving DecidableEq

/-- A remote call the engine can issue, for the call trace. -/
inductive Call where
  | listBuilds
  | listDeployments
  | build (id : String)
  | deploy (id : String)
  | startContainer (id : String)
  | stopContainer (id : String)
  | destroyContainer (id : String)
deriving DecidableEq

/-- The remote client: each field is the response the remote service gives
to the corresponding call (MonitorClient methods used by helpers.rs). A
transport-level failure is the error side of the Except. -/
structure Client where
  listBuilds : Except String (List Entry)
  listDeployments : Except String (List Entry)
  build : String → Except String Update
  deployContainer : String → Except String Update
  startContainer : String → Except String Update
  stopContainer : String → Except String Update
  removeContainer : String → Except String Update

/-- A name index: name-to-id mapping built by inserting entries in listing
order, where a later insert for the same name overwrites an earlier one
(HashMap collect semantics). Represented as an association list with the
most recent insert first. -/
abbrev NameIndex := List (String × String)

/-- Lookup in a NameIndex: first (most recently inserted) binding wins. -/
def mapLookup (k : String) : NameIndex → Option String
  | [] => none
  | (k₂, v) :: rest => if k = k₂ then some v else mapLookup k rest

/-- Insert entries in listing order; later entries shadow earlier ones
under mapLookup (HashMap insert overwrites). -/
def insertEntries (entries : List Entry) (acc : NameIndex) : NameIndex :=
  entries.foldl (fun m e => (e.name, e.id) :: m) acc

/-- build_name_to_id_map: fold the build listing into a name index. -/
def build_name_to_id_map (entries : List Entry) : NameIndex :=
  insertEntries entries []

/-- deployment_name_to_id_map: fold the deployment listing into a name
index. -/
def deployment_name_to_id_map (entries : List Entry) : NameIndex :=
  insertEntries entries []

/-- names_to_ids: resolve each name through the index in input order,
stopping at the first missing name (Rust collect over Result). -/
def names_to_ids (names : List String) (m : NameIndex) : Except Err (List String) :=
  match names with
  | [] => .ok []
  | n :: rest =>
    match mapLookup n m with
    | none => .error (.nameNotFound n)
    | some id =>
      match names_to_ids rest m with
      | .error e => .error e
      | .ok ids => .ok (id :: ids)

/-- collect of an order-preserving sequence of per-identifier results into
one aggregate result: ok only when every element is ok, otherwise the first
error in sequence order (Rust collect of Result over the join_all output). -/
def collectResults : List (Except Err Unit) → Except Err Unit
  | [] => .ok ()
  | .ok _ :: rest => collectResults rest
  | .error e :: _ => .error e

/-- The per-identifier deploy future body: transport errors wrapped with the
deploy context, and a success = false response mapped to a synthetic
unsuccessful-operation failure. -/
def deploy_one (op : String → Except String Update) (id : String) : Except Err Unit :=
  match op id with
  | .error e => .error (.transport ("failed to deploy " ++ id) e)
  | .ok u =>
    if u.success then .ok ()
    else .error (.unsuccessful ("failed to deploy " ++ id ++ ". operation unsuccessful, see monitor update"))

/-- The per-identifier start-container future body. -/
def start_one (op : String → Except String Update) (id : String) : Except Err Unit :=
  match op id with
  | .error e => .error (.transport ("failed to start container " ++ id) e)
  | .ok u =>
    if u.success then .ok ()
    else .error (.unsuccessful ("failed to start container " ++ id ++ ". operation unsuccessful, see monitor update"))

/-- The per-identifier stop-container future body. -/
def stop_one (op : String → Except String Update) (id : String) : Except Err Unit :=
  match op id with
  | .error e => .error (.transport ("failed to stop container " ++ id) e)
  | .ok u =>
    if u.success then .ok ()
    else .error (.unsuccessful ("failed to stop container " ++ id ++ ". operation unsuccessful, see monitor update"))

/-- The per-identifier destroy-container future body. -/
def destroy_one (op : String → Except String Update) (id : String) : Except Err Unit :=
  match op id with
  | .error e => .error (.transport ("failed to destroy container " ++ id) e)
  | .ok u =>
    if u.success then .ok ()
    else .error (.unsuccessful ("failed to destroy container " ++ id ++ ". operation unsuccessful, see monitor update"))

/-- The per-identifier build future body. -/
def build_one (op : String → Except String Update) (id : String) : Except Err Unit :=
  match op id with
  | .error e => .error (.transport ("failed to build " ++ id) e)
  | .ok u =>
    if u.success then .ok ()
    else .error (.unsuccessful ("failed to build " ++ id ++ ". operation unsuccessful, see monitor update"))

/-- redeploy_deployments_in_parallel: one deploy future per identifier,
join_all preserving input order, then collect. -/
def redeploy_deployments_in_parallel (c : Client) (ids : List String) : Except Err Unit :=
  collectResults (ids.map (deploy_one c.deployContainer))

/-- start_containers_in_parallel. -/
def start_containers_in_parallel (c : Client) (ids : List String) : Except Err Unit :=
  collectResults (ids.map (start_one c.startContainer))

/-- stop_containers_in_parallel. -/
def stop_containers_in_parallel (c : Client) (ids : List String) : Except Err Unit :=
  collectResults (ids.map (stop_one c.stopContainer))

/-- destroy_containers_in_parallel. -/
def destroy_containers_in_parallel (c : Client) (ids : List String) : Except Err Unit :=
  collectResults (ids.map (destroy_one c.removeContainer))

/-- trigger_builds_in_parallel. -/
def trigger_builds_in_parallel (c : Client) (ids : List String) : Except Err Unit :=
  collectResults (ids.map (build_one c.build))

/-- The per-identifier invocation outcome a stage of the given action kind
observes for one identifier. -/
def invoke_one (c : Client) : Action → String → Except Err Unit
  | .Build => build_one c.build
  | .Deploy => deploy_one c.deployContainer
  | .StartContainer => start_one c.startContainer
  | .StopContainer => stop_one c.stopContainer
  | .DestroyContainer => destroy_one c.removeContainer

/-- The aggregate result of dispatching one stage action over the resolved
identifiers (the match on action in run_stages, lines 44-56). -/
def stage_dispatch (c : Client) (a : Action) (ids : List String) : Except Err Unit :=
  match a with
  | .Build => trigger_builds_in_parallel c ids
  | .Deploy => redeploy_deployments_in_parallel c ids
  | .StartContainer => start_containers_in_parallel c ids
  | .StopContainer => stop_containers_in_parallel c ids
  | .DestroyContainer => destroy_containers_in_parallel c ids

/-- The remote call issued for one identifier by a stage of the given
action kind. -/
def actionCall : Action → String → Call
  | .Build => Call.build
  | .Deploy => Call.deploy
  | .StartContainer => Call.startContainer
  | .StopContainer => Call.stopContainer
  | .DestroyContainer => Call.destroyContainer

/-- The remote calls a stage dispatch issues: one per identifier, all of
them issued (join_all awaits every future; none is cancelled). -/
def stage_calls (a : Action) (ids : List String) : List Call :=
  ids.map (actionCall a)

/-- Namespace selection (the match on action in run_stages, lines 40-43):
a Build stage resolves against the build index, every other action kind
against the deployment index. -/
def resolution_index (a : Action) (bmap dmap : NameIndex) : NameIndex :=
  match a with
  | .Build => bmap
  | _ => dmap

/-- The stage loop of run_stages: resolve the targets of each stage through
the applicable index, dispatch, and halt on the first failure. Returns the
trace of action calls issued together with the aggregate result. -/
def run_stages_loop (c : Client) (bmap dmap : NameIndex) : List Stage → List Call × Except Err Unit
  | [] => ([], .ok ())
  | s :: rest =>
    match names_to_ids s.targets (resolution_index s.action bmap dmap) with
    | .error e => ([], .error e)
    | .ok ids =>
      match stage_dispatch c s.action ids with
      | .error e => (stage_calls s.action ids, .error e)
      | .ok _ =>
        (stage_calls s.action ids ++ (run_stages_loop c bmap dmap rest).1,
         (run_stages_loop c bmap dmap rest).2)

/-- run_stages: build both name indices once, before the first stage, then
run the stage loop over the fixed snapshots. Returns the full remote call
trace and the run result. -/
def run_stages (c : Client) (stages : List Stage) : List Call × Except Err Unit :=
  match c.listBuilds with
  | .error e => ([Call.listBuilds], .error (.listing e))
  | .ok builds =>
    match c.listDeployments with
    | .error e => ([Call.listBuilds, Call.listDeployments], .error (.listing e))
    | .ok deployments =>
      (Call.listBuilds :: Call.listDeployments ::
        (run_stages_loop c (build_name_to_id_map builds) (deployment_name_to_id_map deployments) stages).1,
       (run_stages_loop c (build_name_to_id_map builds) (deployment_name_to_id_map deployments) stages).2)

/-- A completion schedule: the per-identifier futures finish in the order
given by the index list. Each completed future contributes its index and its
result, in completion order. -/
def completeTasks (tasks : List (Except Err Unit)) (order : List Nat) : List (Nat × Except Err Unit) :=
  order.filterMap (fun i => (tasks[i]?).map (fun r => (i, r)))

/-- join_all places each completed result into the slot of its input index,
producing an input-order sequence (none marks a slot whose future never
completed under the given schedule). -/
def fillSlots (n : Nat) (completed : List (Nat × Except Err Unit)) : List (Option (Except Err Unit)) :=
  (List.range n).map (fun i => (completed.find? (fun p => p.1 == i)).map Prod.snd)

/-- The aggregate join_all + collect computes under a given completion
schedule: gather all completed results into input order, then scan for the
first failure. -/
def join_all_aggregate (tasks : List (Except Err Unit)) (order : List Nat) : Except Err Unit :=
  collectResults ((fillSlots tasks.length (completeTasks tasks order)).map (fun o => o.getD (.ok ())))

/-- A concrete client used to instantiate the theorems: two builds and two
deployments exist, every action succeeds except deploying d2, whose response
reports success = false. -/
def demoClient : Client where
  listBuilds := .ok [⟨"svc-a", "b1"⟩, ⟨"svc-b", "b2"⟩]
  listDeployments := .ok [⟨"svc-a", "d1"⟩, ⟨"svc-b", "d2"⟩]
  build := fun _ => .ok ⟨true⟩
  deployContainer := fun id => if id = "d2" then .ok ⟨false⟩ else .ok ⟨true⟩
  startContainer := fun _ => .ok ⟨true⟩
  stopContainer := fun _ => .ok ⟨true⟩
  removeContainer := fun _ => .ok ⟨true⟩

/-- Modelled from the claim wording for the refinement comparison: the
identifier of the entry for the given name appearing latest in listing
order, if any. -/
def lastIdForName (n : String) : List Entry → Option String
  | [] => none
  | e :: rest =>
    match lastIdForName n rest with
    | some v => some v
    | none => if e.name = n then some e.id else none

/-! Helper lemmas -/

theorem collectResults_eq_ok (rs : List (Except Err Unit)) :
    collectResults rs = .ok () ↔ ∀ r ∈ rs, r = .ok () := by
  induction rs with
  | nil => simp [collectResults]
  | cons r rest ih =>
    cases r with
    | ok u => cases u; simp [collectResults, ih]
    | error e => simp [collectResults]

theorem collect_map_error {α : Type} (f : α → Except Err Unit) (l : List α) (e : Err)
    (h : collectResults (l.map f) = .error e) :
    ∃ pre i post, l = pre ++ i :: post ∧ (∀ j ∈ pre, f j = .ok ()) ∧ f i = .error e := by
  induction l with
  | nil => simp [collectResults] at h
  | cons a rest ih =>
    rw [List.map_cons] at h
    cases ha : f a with
    | ok u =>
      cases u
      rw [ha] at h
      simp only [collectResults] at h
      obtain ⟨pre, i, post, h1, h2, h3⟩ := ih h
      refine ⟨a :: pre, i, post, by rw [h1, List.cons_append], ?_, h3⟩
      intro j hj
      rcases List.mem_cons.mp hj with hj | hj
      · exact hj ▸ ha
      · exact h2 j hj
    | error e2 =>
      rw [ha] at h
      simp only [collectResults, Except.error.injEq] at h
      subst h
      exact ⟨[], a, rest, rfl, by simp, ha⟩

theorem stage_dispatch_eq (c : Client) (a : Action) (ids : List String) :
    stage_dispatch c a ids = collectResults (ids.map (invoke_one c a)) := by
  cases a <;> rfl

theorem find_completeTasks (tasks : List (Except Err Unit)) (order : List Nat) (i : Nat)
    (r : Except Err Unit) (hi : tasks[i]? = some r) (hmem : i ∈ order) :
    (completeTasks tasks order).find? (fun p => p.1 == i) = some (i, r) := by
  induction order with
  | nil => cases hmem
  | cons j rest ih =>
    show (List.filterMap _ (j :: rest)).find? _ = _
    rw [List.filterMap_cons]
    by_cases hji : j = i
    · subst hji
      rw [hi]
      simp [List.find?]
    · have hj : i ∈ rest := by
        rcases List.mem_cons.mp hmem with h | h
        · exact absurd h.symm hji
        · exact h
      cases hjq : tasks[j]? with
      | none => exact ih hj
      | some rj =>
        simp only [Option.map_some']
        rw [List.find?]
        have hne : ((j, rj).1 == i) = false := by simp [hji]
        rw [hne]
        exact ih hj

theorem fillSlots_perm (tasks : List (Except Err Unit)) (order : List Nat)
    (h : order.Perm (List.range tasks.length)) :
    fillSlots tasks.length (completeTasks tasks order) = tasks.map some := by
  apply List.ext_getElem
  · simp [fillSlots]
  · intro i h1 h2
    have hi : i < tasks.length := by simpa using h2
    simp only [fillSlots, List.getElem_map, List.getElem_range]
    have hmem : i ∈ order := h.mem_iff.mpr (List.mem_range.mpr hi)
    rw [find_completeTasks tasks order i tasks[i] (by simp [hi]) hmem]
    simp

theorem join_all_aggregate_perm (tasks : List (Except Err Unit)) (order : List Nat)
    (h : order.Perm (List.range tasks.length)) :
    join_all_aggregate tasks order = collectResults tasks := by
  unfold join_all_aggregate
  rw [fillSlots_perm tasks order h, List.map_map]
  have hcomp : ((fun o => o.getD (Except.ok ())) ∘ some) = (id : Except Err Unit → Except Err Unit) := by
    funext x
    rfl
  rw [hcomp, List.map_id]

theorem run_stages_loop_append (c : Client) (bmap dmap : NameIndex) (pre post : List Stage)
    (e : Err) (h : (run_stages_loop c bmap dmap pre).2 = .error e) :
    run_stages_loop c bmap dmap (pre ++ post) = run_stages_loop c bmap dmap pre := by
  induction pre with
  | nil => simp [run_stages_loop] at h
  | cons s rest ih =>
    rw [List.cons_append]
    cases hres : names_to_ids s.targets (resolution_index s.action bmap dmap) with
    | error e2 => simp [run_stages_loop, hres]
    | ok ids =>
      cases hd : stage_dispatch c s.action ids with
      | error e2 => simp [run_stages_loop, hres, hd]
      | ok u =>
        cases u
        simp only [run_stages_loop, hres, hd] at h ⊢
        rw [ih h]

theorem names_to_ids_first_missing (names : List String) (m : NameIndex)
    (h : ∃ n ∈ names, mapLookup n m = none) :
    ∃ n pre post, names = pre ++ n :: post ∧ (∀ p ∈ pre, (mapLookup p m).isSome) ∧
      mapLookup n m = none ∧ names_to_ids names m = .error (.nameNotFound n) := by
  induction names with
  | nil =>
    obtain ⟨n, hn, _⟩ := h
    cases hn
  | cons a rest ih =>
    cases ha : mapLookup a m with
    | none =>
      exact ⟨a, [], rest, rfl, by simp, ha, by simp [names_to_ids, ha]⟩
    | some v =>
      have h2 : ∃ n ∈ rest, mapLookup n m = none := by
        obtain ⟨n, hn, hnone⟩ := h
        rcases List.mem_cons.mp hn with hn | hn
        · subst hn
          rw [ha] at hnone
          cases hnone
        · exact ⟨n, hn, hnone⟩
      obtain ⟨n, pre, post, h1, h2p, h3, h4⟩ := ih h2
      refine ⟨n, a :: pre, post, by rw [h1, List.cons_append], ?_, h3, ?_⟩
      · intro p hp
        rcases List.mem_cons.mp hp with hp | hp
        · subst hp
          simp [ha]
        · exact h2p p hp
      · simp [names_to_ids, ha, h4]

theorem names_to_ids_ok_pointwise (names : List String) (m : NameIndex)
    (h : ∀ n ∈ names, (mapLookup n m).isSome) :
    ∃ ids, names_to_ids names m = .ok ids ∧ ids.length = names.length ∧
      ∀ i (hi : i < names.length) (hi2 : i < ids.length),
        mapLookup (names.get ⟨i, hi⟩) m = some (ids.get ⟨i, hi2⟩) := by
  induction names with
  | nil => exact ⟨[], rfl, rfl, fun i hi _ => absurd hi (Nat.not_lt_zero i)⟩
  | cons a rest ih =>
    have ha : (mapLookup a m).isSome := h a (List.mem_cons_self a rest)
    obtain ⟨v, hv⟩ := Option.isSome_iff_exists.mp ha
    obtain ⟨ids, h1, h2, h3⟩ := ih (fun n hn => h n (List.mem_cons_of_mem a hn))
    refine ⟨v :: ids, ?_, by simp [h2], ?_⟩
    · simp [names_to_ids, hv, h1]
    · intro i hi hi2
      cases i with
      | zero => simpa using hv
      | succ k =>
        simpa using h3 k (Nat.lt_of_succ_lt_succ hi) (Nat.lt_of_succ_lt_succ hi2)

/-! Claims -/

/-- C1: a stage dispatch aggregate is success exactly when every
per-identifier invocation succeeded; when it fails, the surfaced error is
the error of the identifier appearing first in the input order of the
identifier sequence (all identifiers before it succeeded), and failures of
later identifiers are not reported. -/
theorem stage_dispatch_first_failure (c : Client) (a : Action) (ids : List String) :
    (stage_dispatch c a ids = .ok () ↔ ∀ id ∈ ids, invoke_one c a id = .ok ())
    ∧ (∀ e, stage_dispatch c a ids = .error e →
        ∃ pre i post, ids = pre ++ i :: post ∧ (∀ j ∈ pre, invoke_one c a j = .ok ()) ∧
          invoke_one c a i = .error e) := by
  constructor
  · rw [stage_dispatch_eq, collectResults_eq_ok]
    constructor
    · intro h id hid
      exact h _ (List.mem_map_of_mem _ hid)
    · intro h r hr
      obtain ⟨id, hid, rfl⟩ := List.mem_map.mp hr
      exact h id hid
  · intro e he
    rw [stage_dispatch_eq] at he
    exact collect_map_error _ _ _ he

/-- Witness for C1: deploying d1, d2, d3 against the demo client (where only
d2 fails) surfaces the d2 failure with d1 succeeding before it. -/
theorem stage_dispatch_first_failure_witness :
    ∃ pre i post, (["d1", "d2", "d3"] : List String) = pre ++ i :: post ∧
      (∀ j ∈ pre, invoke_one demoClient Action.Deploy j = .ok ()) ∧
      invoke_one demoClient Action.Deploy i =
        .error (.unsuccessful "failed to deploy d2. operation unsuccessful, see monitor update") :=
  (stage_dispatch_first_failure demoClient Action.Deploy ["d1", "d2", "d3"]).2 _ (by rfl)

/-- C9: for every completion schedule that is a permutation of the
invocation indices, the collected input-order sequence holds every
invocation result (no slot is missing: no sibling invocation was cancelled
after another failed, and aggregation waited for all), and the aggregate
computed from that complete collection equals the stage dispatch result,
independent of completion order. -/
theorem stage_dispatch_no_cancellation (c : Client) (a : Action) (ids : List String)
    (order : List Nat) (h : order.Perm (List.range ids.length)) :
    fillSlots (ids.map (invoke_one c a)).length
        (completeTasks (ids.map (invoke_one c a)) order)
      = (ids.map (invoke_one c a)).map some
    ∧ join_all_aggregate (ids.map (invoke_one c a)) order = stage_dispatch c a ids := by
  have hlen : (ids.map (invoke_one c a)).length = ids.length := List.length_map _ _
  have h2 : order.Perm (List.range (ids.map (invoke_one c a)).length) := by
    rw [hlen]
    exact h
  refine ⟨fillSlots_perm _ _ h2, ?_⟩
  rw [stage_dispatch_eq]
  exact join_all_aggregate_perm _ _ h2

/-- Witness for C9: the schedule finishing the third deploy first, then the
first, then the second, still collects all three results and yields the same
aggregate as input-order aggregation. -/
theorem stage_dispatch_no_cancellation_witness :
    fillSlots ((["d1", "d2", "d3"] : List String).map (invoke_one demoClient Action.Deploy)).length
        (completeTasks ((["d1", "d2", "d3"] : List String).map (invoke_one demoClient Action.Deploy)) [2, 0, 1])
      = ((["d1", "d2", "d3"] : List String).map (invoke_one demoClient Action.Deploy)).map some
    ∧ join_all_aggregate ((["d1", "d2", "d3"] : List String).map (invoke_one demoClient Action.Deploy)) [2, 0, 1]
      = stage_dispatch demoClient Action.Deploy ["d1", "d2", "d3"] :=
  stage_dispatch_no_cancellation demoClient Action.Deploy ["d1", "d2", "d3"] [2, 0, 1] (by decide)

/-- C2: if the run over a prefix of the stage list fails, running the full
stage list produces the identical trace and result: the run terminates with
that failure, and no remote action invocation of any later stage is ever
issued. -/
theorem run_stages_halt_on_failure (c : Client) (pre post : List Stage) (e : Err)
    (h : (run_stages c pre).2 = .error e) :
    run_stages c (pre ++ post) = run_stages c pre := by
  cases hb : c.listBuilds with
  | error e2 => simp [run_stages, hb]
  | ok builds =>
    cases hd : c.listDeployments with
    | error e2 => simp [run_stages, hb, hd]
    | ok deps =>
      simp only [run_stages, hb, hd] at h ⊢
      rw [run_stages_loop_append _ _ _ _ _ _ h]

/-- Witness for C2: a deploy stage whose d2 invocation fails halts the
demo run; appending a build stage changes neither the call trace nor the
result. -/
theorem run_stages_halt_on_failure_witness :
    run_stages demoClient
        ([⟨"go-live", Action.Deploy, ["svc-a", "svc-b"]⟩] ++ [⟨"build-all", Action.Build, ["svc-a"]⟩])
      = run_stages demoClient [⟨"go-live", Action.Deploy, ["svc-a", "svc-b"]⟩] :=
  run_stages_halt_on_failure demoClient
    [⟨"go-live", Action.Deploy, ["svc-a", "svc-b"]⟩]
    [⟨"build-all", Action.Build, ["svc-a"]⟩]
    (.unsuccessful "failed to deploy d2. operation unsuccessful, see monitor update")
    (by rfl)

/-- C3: when some name of the sequence is absent from the index, resolution
fails with a NameNotFoundError naming exactly the first missing name (all
names before it are present), returns no output sequence, and a stage whose
targets fail to resolve issues no remote action invocation: the stage loop
halts with the resolution error and an empty call trace. -/
theorem names_to_ids_missing_name (names : List String) (m : NameIndex)
    (h : ∃ n ∈ names, mapLookup n m = none) :
    ∃ n pre post, names = pre ++ n :: post ∧ (∀ p ∈ pre, (mapLookup p m).isSome) ∧
      mapLookup n m = none ∧ names_to_ids names m = .error (.nameNotFound n) ∧
      ∀ c bmap dmap s rest, s.targets = names → resolution_index s.action bmap dmap = m →
        run_stages_loop c bmap dmap (s :: rest) = ([], .error (.nameNotFound n)) := by
  obtain ⟨n, pre, post, h1, h2, h3, h4⟩ := names_to_ids_first_missing names m h
  refine ⟨n, pre, post, h1, h2, h3, h4, ?_⟩
  intro c bmap dmap s rest ht hm
  simp [run_stages_loop, ht, hm, h4]

/-- Witness for C3: resolving svc-a and ghost against the demo deployment
index fails on ghost, and a deploy stage with those targets dispatches
nothing. -/
theorem names_to_ids_missing_name_witness :
    ∃ n pre post, (["svc-a", "ghost"] : List String) = pre ++ n :: post ∧
      (∀ p ∈ pre, (mapLookup p (deployment_name_to_id_map [⟨"svc-a", "d1"⟩, ⟨"svc-b", "d2"⟩])).isSome) ∧
      mapLookup n (deployment_name_to_id_map [⟨"svc-a", "d1"⟩, ⟨"svc-b", "d2"⟩]) = none ∧
      names_to_ids ["svc-a", "ghost"] (deployment_name_to_id_map [⟨"svc-a", "d1"⟩, ⟨"svc-b", "d2"⟩])
        = .error (.nameNotFound n) ∧
      ∀ c bmap dmap s rest, s.targets = ["svc-a", "ghost"] →
        resolution_index s.action bmap dmap = deployment_name_to_id_map [⟨"svc-a", "d1"⟩, ⟨"svc-b", "d2"⟩] →
        run_stages_loop c bmap dmap (s :: rest) = ([], .error (.nameNotFound n)) :=
  names_to_ids_missing_name ["svc-a", "ghost"]
    (deployment_name_to_id_map [⟨"svc-a", "d1"⟩, ⟨"svc-b", "d2"⟩])
    ⟨"ghost", by decide, by rfl⟩

/-- C4: when every name is present in the index, resolution returns a
sequence of the same length whose i-th element is the identifier the index
maps the i-th input name to (order preserved, duplicates resolved
independently); and the round trip of building an index from the listing
a maps-to 1, b maps-to 2 and then resolving b, a yields 2, 1. -/
theorem names_to_ids_order_preserved (names : List String) (m : NameIndex)
    (h : ∀ n ∈ names, (mapLookup n m).isSome) :
    (∃ ids, names_to_ids names m = .ok ids ∧ ids.length = names.length ∧
      ∀ i (hi : i < names.length) (hi2 : i < ids.length),
        mapLookup (names.get ⟨i, hi⟩) m = some (ids.get ⟨i, hi2⟩))
    ∧ names_to_ids ["b", "a"] (build_name_to_id_map [⟨"a", "1"⟩, ⟨"b", "2"⟩]) = .ok ["2", "1"] :=
  ⟨names_to_ids_ok_pointwise names m h, by rfl⟩

/-- Witness for C4: resolving svc-b, svc-a, svc-b (a duplicate) against the
demo deployment index succeeds pointwise. -/
theorem names_to_ids_order_preserved_witness :
    (∃ ids, names_to_ids ["svc-b", "svc-a", "svc-b"]
          (deployment_name_to_id_map [⟨"svc-a", "d1"⟩, ⟨"svc-b", "d2"⟩]) = .ok ids ∧
      ids.length = (["svc-b", "svc-a", "svc-b"] : List String).length ∧
      ∀ i (hi : i < (["svc-b", "svc-a", "svc-b"] : List String).length) (hi2 : i < ids.length),
        mapLookup ((["svc-b", "svc-a", "svc-b"] : List String).get ⟨i, hi⟩)
            (deployment_name_to_id_map [⟨"svc-a", "d1"⟩, ⟨"svc-b", "d2"⟩])
          = some (ids.get ⟨i, hi2⟩))
    ∧ names_to_ids ["b", "a"] (build_name_to_id_map [⟨"a", "1"⟩, ⟨"b", "2"⟩]) = .ok ["2", "1"] :=
  names_to_ids_order_preserved ["svc-b", "svc-a", "svc-b"]
    (deployment_name_to_id_map [⟨"svc-a", "d1"⟩, ⟨"svc-b", "d2"⟩])
    (by decide)

/-- C5: the resolution namespace is selected solely by the action kind of
the stage: Build selects the build index and every other action kind the
deployment index; consequently a one-stage run with a Build stage is
unaffected by the deployment index, and one with any non-Build stage is
unaffected by the build index. -/
theorem resolution_namespace_by_action (bmap dmap bmap₂ dmap₂ : NameIndex) (c : Client) (s : Stage) :
    resolution_index Action.Build bmap dmap = bmap
    ∧ resolution_index Action.Deploy bmap dmap = dmap
    ∧ resolution_index Action.StartContainer bmap dmap = dmap
    ∧ resolution_index Action.StopContainer bmap dmap = dmap
    ∧ resolution_index Action.DestroyContainer bmap dmap = dmap
    ∧ (s.action = Action.Build → run_stages_loop c bmap dmap [s] = run_stages_loop c bmap dmap₂ [s])
    ∧ (s.action ≠ Action.Build → run_stages_loop c bmap dmap [s] = run_stages_loop c bmap₂ dmap [s]) := by
  obtain ⟨nm, a, tg⟩ := s
  refine ⟨rfl, rfl, rfl, rfl, rfl, ?_, ?_⟩
  · intro h
    cases a with
    | Build => rfl
    | Deploy => exact nomatch h
    | StartContainer => exact nomatch h
    | StopContainer => exact nomatch h
    | DestroyContainer => exact nomatch h
  · intro h
    cases a with
    | Build => exact absurd rfl h
    | Deploy => rfl
    | StartContainer => rfl
    | StopContainer => rfl
    | DestroyContainer => rfl

/-- Witness for C5: a Build stage run is unchanged when the deployment
index is replaced, and a Deploy stage run is unchanged when the build index
is replaced. -/
theorem resolution_namespace_by_action_witness :
    (run_stages_loop demoClient [("svc-a", "b1")] [("svc-a", "d1")] [⟨"st", Action.Build, ["svc-a"]⟩]
      = run_stages_loop demoClient [("svc-a", "b1")] [] [⟨"st", Action.Build, ["svc-a"]⟩])
    ∧ (run_stages_loop demoClient [("svc-a", "b1")] [("svc-a", "d1")] [⟨"st", Action.Deploy, ["svc-a"]⟩]
      = run_stages_loop demoClient [] [("svc-a", "d1")] [⟨"st", Action.Deploy, ["svc-a"]⟩]) :=
  ⟨(resolution_namespace_by_action [("svc-a", "b1")] [("svc-a", "d1")] [] []
      demoClient ⟨"st", Action.Build, ["svc-a"]⟩).2.2.2.2.2.1 (by rfl),
   (resolution_namespace_by_action [("svc-a", "b1")] [("svc-a", "d1")] [] []
      demoClient ⟨"st", Action.Deploy, ["svc-a"]⟩).2.2.2.2.2.2 (by decide)⟩

theorem actionCall_ne_listing (a : Action) (id : String) :
    actionCall a id ≠ Call.listBuilds ∧ actionCall a id ≠ Call.listDeployments := by
  cases a <;> exact ⟨(fun h => nomatch h), (fun h => nomatch h)⟩

theorem run_stages_loop_trace_action (c : Client) (bmap dmap : NameIndex) (stages : List Stage) :
    ∀ call ∈ (run_stages_loop c bmap dmap stages).1, ∃ a id, call = actionCall a id := by
  induction stages with
  | nil =>
    intro call h
    cases h
  | cons s rest ih =>
    intro call h
    cases hres : names_to_ids s.targets (resolution_index s.action bmap dmap) with
    | error e =>
      simp only [run_stages_loop, hres] at h
      cases h
    | ok ids =>
      cases hd : stage_dispatch c s.action ids with
      | error e =>
        simp only [run_stages_loop, hres, hd] at h
        obtain ⟨id, _, rfl⟩ := List.mem_map.mp h
        exact ⟨s.action, id, rfl⟩
      | ok u =>
        cases u
        simp only [run_stages_loop, hres, hd] at h
        rcases List.mem_append.mp h with h | h
        · obtain ⟨id, _, rfl⟩ := List.mem_map.mp h
          exact ⟨s.action, id, rfl⟩
        · exact ih call h

theorem mapLookup_insertEntries (n : String) (entries : List Entry) (acc : NameIndex) :
    mapLookup n (insertEntries entries acc) =
      match lastIdForName n entries with
      | some v => some v
      | none => mapLookup n acc := by
  induction entries generalizing acc with
  | nil => rfl
  | cons e rest ih =>
    show mapLookup n (insertEntries rest ((e.name, e.id) :: acc)) = _
    rw [ih]
    cases hl : lastIdForName n rest with
    | some v => simp [lastIdForName, hl]
    | none =>
      simp only [lastIdForName, hl, mapLookup]
      by_cases hn : n = e.name
      · subst hn
        simp
      · rw [if_neg hn, if_neg (fun h => hn h.symm)]

/-- C6: when both listing calls succeed, the run issues exactly one
listBuilds and one listDeployments call, both before any stage call; the
rest of the trace holds no listing call, and every stage of the run
resolves against the two index snapshots built at run start (the stage loop
runs over those fixed snapshots). -/
theorem indices_built_once (c : Client) (stages : List Stage) (builds deployments : List Entry)
    (hb : c.listBuilds = .ok builds) (hd : c.listDeployments = .ok deployments) :
    run_stages c stages =
      (Call.listBuilds :: Call.listDeployments ::
         (run_stages_loop c (build_name_to_id_map builds) (deployment_name_to_id_map deployments) stages).1,
       (run_stages_loop c (build_name_to_id_map builds) (deployment_name_to_id_map deployments) stages).2)
    ∧ (∀ call ∈ (run_stages_loop c (build_name_to_id_map builds) (deployment_name_to_id_map deployments) stages).1,
        call ≠ Call.listBuilds ∧ call ≠ Call.listDeployments)
    ∧ (run_stages c stages).1.count Call.listBuilds = 1
    ∧ (run_stages c stages).1.count Call.listDeployments = 1 := by
  have h1 : run_stages c stages =
      (Call.listBuilds :: Call.listDeployments ::
         (run_stages_loop c (build_name_to_id_map builds) (deployment_name_to_id_map deployments) stages).1,
       (run_stages_loop c (build_name_to_id_map builds) (deployment_name_to_id_map deployments) stages).2) := by
    simp [run_stages, hb, hd]
  have h2 : ∀ call ∈ (run_stages_loop c (build_name_to_id_map builds)
      (deployment_name_to_id_map deployments) stages).1,
      call ≠ Call.listBuilds ∧ call ≠ Call.listDeployments := by
    intro call hc
    obtain ⟨a, id, rfl⟩ := run_stages_loop_trace_action c _ _ stages call hc
    exact actionCall_ne_listing a id
  have hnb : Call.listBuilds ∉ (run_stages_loop c (build_name_to_id_map builds)
      (deployment_name_to_id_map deployments) stages).1 :=
    fun hmem => (h2 _ hmem).1 rfl
  have hnd : Call.listDeployments ∉ (run_stages_loop c (build_name_to_id_map builds)
      (deployment_name_to_id_map deployments) stages).1 :=
    fun hmem => (h2 _ hmem).2 rfl
  refine ⟨h1, h2, ?_, ?_⟩
  · rw [h1]
    simp [List.count_cons, List.count_eq_zero.mpr hnb]
  · rw [h1]
    simp [List.count_cons, List.count_eq_zero.mpr hnd]

/-- Witness for C6 at the demo client and a two-stage run-book. -/
theorem indices_built_once_witness :
    (run_stages demoClient
        [⟨"build-all", Action.Build, ["svc-a", "svc-b"]⟩,
         ⟨"go-live", Action.Deploy, ["svc-a", "svc-b"]⟩]).1.count Call.listBuilds = 1
    ∧ (run_stages demoClient
        [⟨"build-all", Action.Build, ["svc-a", "svc-b"]⟩,
         ⟨"go-live", Action.Deploy, ["svc-a", "svc-b"]⟩]).1.count Call.listDeployments = 1 :=
  ⟨(indices_built_once demoClient
      [⟨"build-all", Action.Build, ["svc-a", "svc-b"]⟩, ⟨"go-live", Action.Deploy, ["svc-a", "svc-b"]⟩]
      [⟨"svc-a", "b1"⟩, ⟨"svc-b", "b2"⟩] [⟨"svc-a", "d1"⟩, ⟨"svc-b", "d2"⟩] rfl rfl).2.2.1,
   (indices_built_once demoClient
      [⟨"build-all", Action.Build, ["svc-a", "svc-b"]⟩, ⟨"go-live", Action.Deploy, ["svc-a", "svc-b"]⟩]
      [⟨"svc-a", "b1"⟩, ⟨"svc-b", "b2"⟩] [⟨"svc-a", "d1"⟩, ⟨"svc-b", "d2"⟩] rfl rfl).2.2.2⟩

/-- C7: a response carrying success = false becomes a per-identifier
failure of the distinct unsuccessful kind, whose message names the
identifier and states the operation was reported unsuccessful; it makes the
stage aggregate a failure exactly as a transport error would, while the
unsuccessful kind never coincides with the transport kind. -/
theorem unsuccessful_response_fails (op : String → Except String Update) (id : String)
    (h : op id = .ok ⟨false⟩) :
    deploy_one op id =
      .error (.unsuccessful ("failed to deploy " ++ id ++ ". operation unsuccessful, see monitor update"))
    ∧ (∀ c ids, c.deployContainer = op → id ∈ ids →
        redeploy_deployments_in_parallel c ids ≠ .ok ())
    ∧ (∀ msg tmsg cause, Err.unsuccessful msg ≠ Err.transport tmsg cause) := by
  have h1 : deploy_one op id =
      .error (.unsuccessful ("failed to deploy " ++ id ++ ". operation unsuccessful, see monitor update")) := by
    simp [deploy_one, h]
  refine ⟨h1, ?_, ?_⟩
  · intro c ids hc hmem hok
    have hall := (collectResults_eq_ok _).mp hok (deploy_one c.deployContainer id)
      (List.mem_map_of_mem _ hmem)
    rw [hc, h1] at hall
    cases hall
  · intro msg tmsg cause hcontra
    cases hcontra

/-- Witness for C7: the demo client reports success = false for deploying
d2, so the d2 deploy invocation fails with the unsuccessful kind and the
aggregate over the two-element stage is not a success. -/
theorem unsuccessful_response_fails_witness :
    deploy_one demoClient.deployContainer "d2" =
      .error (.unsuccessful ("failed to deploy " ++ "d2" ++ ". operation unsuccessful, see monitor update"))
    ∧ (∀ c ids, c.deployContainer = demoClient.deployContainer → "d2" ∈ ids →
        redeploy_deployments_in_parallel c ids ≠ .ok ())
    ∧ (∀ msg tmsg cause, Err.unsuccessful msg ≠ Err.transport tmsg cause) :=
  unsuccessful_response_fails demoClient.deployContainer "d2" (by rfl)

/-- C8: a run-book with zero stages completes successfully and the only
remote calls in the trace are the two index-construction listing calls. -/
theorem empty_runbook_succeeds (c : Client) (builds deployments : List Entry)
    (hb : c.listBuilds = .ok builds) (hd : c.listDeployments = .ok deployments) :
    run_stages c [] = ([Call.listBuilds, Call.listDeployments], .ok ()) := by
  simp [run_stages, hb, hd, run_stages_loop]

/-- Witness for C8 at the demo client. -/
theorem empty_runbook_succeeds_witness :
    run_stages demoClient [] = ([Call.listBuilds, Call.listDeployments], .ok ()) :=
  empty_runbook_succeeds demoClient [⟨"svc-a", "b1"⟩, ⟨"svc-b", "b2"⟩]
    [⟨"svc-a", "d1"⟩, ⟨"svc-b", "d2"⟩] rfl rfl

/-- C10: index construction is total (it never raises a duplicate-name
error), and a name carried by several listing entries is mapped to the
identifier of the entry appearing latest in listing order, for both the
build and the deployment index; in particular two entries named x with ids
1 and 2 yield the mapping x maps-to 2. -/
theorem duplicate_names_later_entry_wins (entries : List Entry) (n : String) :
    mapLookup n (build_name_to_id_map entries) = lastIdForName n entries
    ∧ mapLookup n (deployment_name_to_id_map entries) = lastIdForName n entries
    ∧ mapLookup "x" (build_name_to_id_map [⟨"x", "1"⟩, ⟨"x", "2"⟩]) = some "2" := by
  have key : mapLookup n (insertEntries entries []) = lastIdForName n entries := by
    rw [mapLookup_insertEntries]
    cases lastIdForName n entries <;> rfl
  exact ⟨key, key, by rfl⟩

end Monrun
